import Mathlib

/-!
Verification development for the timeline mutation engine and its agent layer.

The definitions below are a shallow embedding of the TypeScript sources:
the `Clip` value type and its partial-update records, the `TimelineStore`
class (clip collection plus undo/redo history, embedded as explicit state
passing: every method returns the next store value), the `TimelineOps`
semantic layer, the `ExecutorAgent`, the `VerifierAgent` and the
orchestration loop.  JavaScript numbers are embedded as `Int`; the JS
arrays used as stacks (`push`/`pop` on `past`, `unshift`/`shift` on
`future`) are embedded as Lean lists with the stack top at the head.
`JSON.parse(JSON.stringify(x))` deep copies are the identity in this pure
embedding.  External oracle calls (speech generation, the judgment oracle,
the intent-resolution oracle) are parameters of the embedded functions.
-/

/-- Clip.transform record from `types.ts`. -/
structure Transform where
  x : Int
  y : Int
  scale : Int
  rotation : Int
deriving DecidableEq, Repr

/-- Clip.textStyle record from `types.ts`. -/
structure TextStyle where
  fontFamily : String
  fontSize : Int
  isBold : Bool
  isItalic : Bool
  isUnderline : Bool
  color : String
  backgroundColor : String
  backgroundOpacity : Int
  align : String
deriving DecidableEq, Repr

/-- The Clip interface from `types.ts`.  Optional TS fields are `Option`s. -/
structure Clip where
  id : String
  title : String
  duration : Int
  startTime : Int
  sourceStartTime : Int
  type : Option String := none
  sourceUrl : Option String := none
  text : Option String := none
  textStyle : Option TextStyle := none
  totalDuration : Option Int := none
  trackId : Int
  transform : Option Transform := none
  speed : Option Int := none
  volume : Option Int := none
deriving DecidableEq, Repr

/-- A `Partial<Clip>` update record: a field that is `some v` is present in
the partial object and overrides the clip's field on spread-merge. -/
structure ClipUpdates where
  id : Option String := none
  title : Option String := none
  duration : Option Int := none
  startTime : Option Int := none
  sourceStartTime : Option Int := none
  type : Option (Option String) := none
  sourceUrl : Option (Option String) := none
  text : Option (Option String) := none
  textStyle : Option (Option TextStyle) := none
  totalDuration : Option (Option Int) := none
  trackId : Option Int := none
  transform : Option (Option Transform) := none
  speed : Option (Option Int) := none
  volume : Option (Option Int) := none
deriving DecidableEq, Repr

/-- The spread merge `\x7b ...c, ...updates \x7d` used by `updateClip`. -/
def applyUpdates (c : Clip) (u : ClipUpdates) : Clip where
  id := u.id.getD c.id
  title := u.title.getD c.title
  duration := u.duration.getD c.duration
  startTime := u.startTime.getD c.startTime
  sourceStartTime := u.sourceStartTime.getD c.sourceStartTime
  type := u.type.getD c.type
  sourceUrl := u.sourceUrl.getD c.sourceUrl
  text := u.text.getD c.text
  textStyle := u.textStyle.getD c.textStyle
  totalDuration := u.totalDuration.getD c.totalDuration
  trackId := u.trackId.getD c.trackId
  transform := u.transform.getD c.transform
  speed := u.speed.getD c.speed
  volume := u.volume.getD c.volume

/-- The TimelineStore class state: live clip list plus the two history
stacks.  Stack top is the list head (JS `past.push`/`pop` operate on the
array end, `future.unshift`/`shift` on the front; both are embedded as
head operations). -/
structure TimelineStore where
  clips : List Clip
  past : List (List Clip)
  future : List (List Clip)
deriving DecidableEq, Repr

namespace TimelineStore

/-- `getClips()`. -/
def getClips (s : TimelineStore) : List Clip := s.clips

/-- Private `saveHistory()`: push a deep snapshot of the current clips onto
`past` and clear `future`. -/
def saveHistory (s : TimelineStore) : TimelineStore :=
  { s with past := s.clips :: s.past, future := [] }

/-- `setClips(newClips)`. -/
def setClips (s : TimelineStore) (newClips : List Clip) : TimelineStore :=
  { s.saveHistory with clips := newClips }

/-- `addClip(clip)`: append. -/
def addClip (s : TimelineStore) (clip : Clip) : TimelineStore :=
  { s.saveHistory with clips := s.clips ++ [clip] }

/-- `removeClip(id)`: filter out every clip whose id matches. -/
def removeClip (s : TimelineStore) (id : String) : TimelineStore :=
  { s.saveHistory with clips := s.clips.filter (fun c => c.id ≠ id) }

/-- `updateClip(id, updates)`: shallow-merge into the matching clip. -/
def updateClip (s : TimelineStore) (id : String) (u : ClipUpdates) : TimelineStore :=
  { s.saveHistory with
    clips := s.clips.map (fun c => if c.id = id then applyUpdates c u else c) }

/-- `moveClip(id, startTime, trackId)`. -/
def moveClip (s : TimelineStore) (id : String) (startTime trackId : Int) : TimelineStore :=
  { s.saveHistory with
    clips := s.clips.map (fun c =>
      if c.id = id then { c with startTime := startTime, trackId := trackId } else c) }

/-- `undo()`: no-op when `past` is empty; otherwise pop `past`, push the
current clips onto `future`, restore the popped snapshot. -/
def undo (s : TimelineStore) : TimelineStore :=
  match s.past with
  | [] => s
  | previous :: rest =>
    { clips := previous, past := rest, future := s.clips :: s.future }

/-- `redo()`: mirror of `undo`. -/
def redo (s : TimelineStore) : TimelineStore :=
  match s.future with
  | [] => s
  | next :: rest =>
    { clips := next, past := s.clips :: s.past, future := rest }

/-- `canUndo()`. -/
def canUndo (s : TimelineStore) : Bool := decide (s.past.length > 0)

/-- `canRedo()`. -/
def canRedo (s : TimelineStore) : Bool := decide (s.future.length > 0)

end TimelineStore

/-- One mutating store primitive call, used to quantify over "any mutation". -/
inductive Mutation where
  | set (newClips : List Clip)
  | add (clip : Clip)
  | remove (id : String)
  | update (id : String) (u : ClipUpdates)
  | move (id : String) (startTime trackId : Int)
deriving Repr

/-- Dispatch a `Mutation` to the corresponding store primitive. -/
def applyMutation (s : TimelineStore) : Mutation → TimelineStore
  | .set l => s.setClips l
  | .add c => s.addClip c
  | .remove id => s.removeClip id
  | .update id u => s.updateClip id u
  | .move id st tr => s.moveClip id st tr

/-- Single-key object literal `\x7b [property]: value \x7d` built by
`updateClipProperty` for the numeric clip properties offered by the
`update_clip_property` tool schema (plus the other numeric clip keys);
an unrecognised key touches none of the modelled fields. -/
def singleFieldUpdate (property : String) (value : Int) : ClipUpdates :=
  if property = "startTime" then { startTime := some value }
  else if property = "duration" then { duration := some value }
  else if property = "volume" then { volume := some (some value) }
  else if property = "speed" then { speed := some (some value) }
  else if property = "trackId" then { trackId := some value }
  else if property = "sourceStartTime" then { sourceStartTime := some value }
  else if property = "totalDuration" then { totalDuration := some (some value) }
  else {}

namespace TimelineOps

/-- `TimelineOps.updateClipProperty(store, clipId, property, value)`. -/
def updateClipProperty (store : TimelineStore) (clipId property : String)
    (value : Int) : TimelineStore :=
  store.updateClip clipId (singleFieldUpdate property value)

/-- `TimelineOps.rippleDelete(store, clipId)`: find the clip (no-op when
absent), remove it, then shift every remaining same-track clip that starts
strictly after it left by its duration, clamped at 0.  Each shift is its
own `updateClip` call on the store, exactly as in the source. -/
def rippleDelete (store : TimelineStore) (clipId : String) : TimelineStore :=
  match store.getClips.find? (fun c => c.id = clipId) with
  | none => store
  | some clip =>
    let s1 := store.removeClip clipId
    let clipsToShift := s1.getClips.filter
      (fun c => c.trackId = clip.trackId ∧ c.startTime > clip.startTime)
    clipsToShift.foldl
      (fun st c =>
        st.updateClip c.id { startTime := some (max 0 (c.startTime - clip.duration)) })
      s1

/-- `TimelineOps.trimClip(store, clipId, newDuration)`. -/
def trimClip (store : TimelineStore) (clipId : String) (newDuration : Int) :
    TimelineStore :=
  store.updateClip clipId { duration := some newDuration }

/-- `TimelineOps.moveClip(store, clipId, startTime, trackId?)`. -/
def moveClip (store : TimelineStore) (clipId : String) (startTime : Int)
    (trackId : Option Int) : TimelineStore :=
  match store.getClips.find? (fun c => c.id = clipId) with
  | none => store
  | some clip => store.moveClip clipId startTime (trackId.getD clip.trackId)

/-- `TimelineOps.addClip(store, clip)`. -/
def addClip (store : TimelineStore) (clip : Clip) : TimelineStore :=
  store.addClip clip

end TimelineOps

/-- The loosely typed `args` object of a tool call as used by
`ExecutorAgent.execute`; each field models the argument of the same name. -/
structure ExecArgs where
  clipId : String := ""
  property : String := ""
  value : Int := 0
  newDuration : Int := 0
  text : String := ""
  insertTime : Int := 0
  trackId : Int := 0
deriving DecidableEq, Repr

/-- The `functionCall` parameter of `ExecutorAgent.execute`. -/
structure FunctionCall where
  name : String
  args : ExecArgs := {}
deriving DecidableEq, Repr

/-- The `ExecutionResult` record returned by `ExecutorAgent.execute`. -/
structure ExecutionResult where
  success : Bool
  operation : String
  clipId : Option String := none
  error : Option String := none
deriving DecidableEq, Repr

/-- JavaScript numeric `x || fallback` (0 is falsy), used for
`tempAudio.duration || 5` and `Number(args.trackId) || 2`. -/
def jsOr (x fallback : Int) : Int := if x = 0 then fallback else x

/-- Outcomes of the external effects awaited inside the
`generate_voiceover` branch of the executor: `generateSpeech` either
throws (error message) or yields an audio URL; the metadata probe yields a
duration (0 standing for a falsy probe result); `Date.now()` yields the
id suffix. -/
structure ExecEnv where
  speech : Except String String
  audioDuration : Int := 5
  now : Nat := 0

/-- The four tool names the executor's switch recognises. -/
def knownToolNames : List String :=
  ["update_clip_property", "ripple_delete", "smart_trim", "generate_voiceover"]

/-- `ExecutorAgent.execute(functionCall)`: dispatch on the tool name; the
whole body runs inside try/catch, so the embedding is a total function
returning the next store and an `ExecutionResult` — an unknown name hits
the `default` branch whose thrown error is caught and converted to a
failed result record. -/
def ExecutorAgent.execute (env : ExecEnv) (store : TimelineStore)
    (call : FunctionCall) : TimelineStore × ExecutionResult :=
  if call.name = "update_clip_property" then
    (TimelineOps.updateClipProperty store call.args.clipId call.args.property
      call.args.value,
     { success := true, operation := call.name, clipId := some call.args.clipId })
  else if call.name = "ripple_delete" then
    (TimelineOps.rippleDelete store call.args.clipId,
     { success := true, operation := call.name, clipId := some call.args.clipId })
  else if call.name = "smart_trim" then
    (TimelineOps.trimClip store call.args.clipId call.args.newDuration,
     { success := true, operation := call.name, clipId := some call.args.clipId })
  else if call.name = "generate_voiceover" then
    match env.speech with
    | .error msg =>
      (store, { success := false, operation := call.name, error := some msg })
    | .ok audioUrl =>
      let newClip : Clip :=
        { id := "vo-" ++ toString env.now
          title := "VO: " ++ call.args.text.take 15 ++ "..."
          type := some "audio"
          startTime := call.args.insertTime
          duration := jsOr env.audioDuration 5
          sourceStartTime := 0
          sourceUrl := some audioUrl
          trackId := jsOr call.args.trackId 2
          volume := some 1
          speed := some 1
          transform := some { x := 0, y := 0, scale := 1, rotation := 0 } }
      (TimelineOps.addClip store newClip,
       { success := true, operation := call.name, clipId := some newClip.id })
  else
    (store,
     { success := false, operation := call.name,
       error := some ("Unknown operation: " ++ call.name) })

/-- The `VerificationResult` record returned by `VerifierAgent.verify`. -/
structure VerificationResult where
  passed : Bool
  issues : Option (List String) := none
  suggestion : Option String := none
deriving DecidableEq, Repr

/-- Outcome of the judgment-oracle call made inside `verify`: the request
rejects, or resolves with no text part among the candidates, or resolves
with a raw text. -/
inductive OracleResponse where
  | reject (msg : String)
  | missingText
  | text (t : String)
deriving DecidableEq, Repr

/-- Private `formatClips` of the verifier. -/
def formatClips (clips : List Clip) : String :=
  if clips.length = 0 then "Empty Timeline"
  else String.intercalate "\n" (clips.map (fun c =>
    "[" ++ c.id ++ "] " ++ c.type.getD "" ++ " | Start: " ++ toString c.startTime ++
    "s | Dur: " ++ toString c.duration ++ "s | Track " ++ toString c.trackId ++
    " | \"" ++ c.title ++ "\""))

/-- The verification prompt assembled by `verify`. -/
def mkVerificationPrompt (intent operation : String)
    (preState postState : List Clip) : String :=
  "\nVERIFICATION TASK:\nUser Intent: \"" ++ intent ++ "\"\nOperation Executed: " ++
  operation ++ "\n\nTIMELINE BEFORE:\n" ++ formatClips preState ++
  "\n\nTIMELINE AFTER:\n" ++ formatClips postState ++
  "\n\nCHECKLIST:\n1. Did the operation execute? (check clip changes)\n" ++
  "2. Are there structural issues? (overlaps, gaps, invalid values)\n" ++
  "3. Does the result match the intent?\n\nRespond in JSON with this schema:\n" ++
  "\x7b\n  \"passed\": boolean,\n  \"issues\": string[] | null,\n  \"suggestion\": string | null\n\x7d\n    "

/-- `VerifierAgent.verify(intent, operation, preState, postState)`.  The
judgment-oracle call and `JSON.parse` are parameters: `oracle` maps the
prompt to the call's outcome and `parseJson` returns `none` exactly when
`JSON.parse` would throw.  Every failure path (rejection, missing text,
unparseable text) lands in the catch block, which returns the fail-open
record. -/
def VerifierAgent.verify (parseJson : String → Option VerificationResult)
    (oracle : String → OracleResponse) (intent operation : String)
    (preState postState : List Clip) : VerificationResult :=
  match oracle (mkVerificationPrompt intent operation preState postState) with
  | .reject _ =>
    { passed := true, issues := some ["Verification AI failed"], suggestion := none }
  | .missingText =>
    { passed := true, issues := some ["Verification AI failed"], suggestion := none }
  | .text t =>
    match parseJson t with
    | none =>
      { passed := true, issues := some ["Verification AI failed"], suggestion := none }
    | some r => r

/-- PlanStep from `types.ts`. -/
structure PlanStep where
  id : String
  intent : String
  category : Option String := none
  reasoning : String := ""
  timestamp : Option Int := none
  status : String := "pending"
deriving DecidableEq, Repr

/-- Modelled from the spec: per-step entry of the orchestrator's final
report (the file `src/services/agents/orchestrator.ts` is imported by
`App.tsx` but absent from the sources; `App.tsx` reads `result.status`
and tests whether it contains "success").  Terminal states are
`success`, `failed` and `resolution-failed`. -/
structure StepResult where
  stepId : String
  status : String
  error : Option String := none
deriving DecidableEq, Repr

/-- Modelled from the spec: `OrchestratorAgent.executePlanWithVerification`
(its source file `src/services/agents/orchestrator.ts` is missing from the
repository snapshot).  Following the spec's control loop: for each step in
plan order, call the intent-resolution oracle with the step and the current
clip state; if it yields no action, record a resolution-failed result and
continue; otherwise hand the resolved call to the Execution Agent, record
its success or failure, and continue; after all steps return the report
whose results map 1:1 to the input steps in order.  Progress messages are
side-effect free here and omitted. -/
def OrchestratorAgent.executePlanWithVerification
    (resolve : PlanStep → List Clip → Option FunctionCall) (env : ExecEnv)
    (store : TimelineStore) : List PlanStep → TimelineStore × List StepResult
  | [] => (store, [])
  | step :: rest =>
    match resolve step store.clips with
    | none =>
      let next := executePlanWithVerification resolve env store rest
      (next.1, { stepId := step.id, status := "resolution-failed" } :: next.2)
    | some call =>
      let ex := ExecutorAgent.execute env store call
      let next := executePlanWithVerification resolve env ex.1 rest
      (next.1,
       { stepId := step.id,
         status := if ex.2.success then "success" else "failed",
         error := ex.2.error } :: next.2)

/-- Concrete clip used to evaluate theorems on explicit inputs. -/
def wClipA : Clip :=
  { id := "a", title := "A", duration := 5, startTime := 0, sourceStartTime := 0, trackId := 1 }

/-- Concrete clip on the same track as `wClipA`, starting after it. -/
def wClipB : Clip :=
  { id := "b", title := "B", duration := 3, startTime := 5, sourceStartTime := 0, trackId := 1 }

/-- Concrete clip on a different track. -/
def wClipC : Clip :=
  { id := "c", title := "C", duration := 3, startTime := 5, sourceStartTime := 0, trackId := 2 }

/-- Concrete store holding the three sample clips with empty history. -/
def wStore : TimelineStore := { clips := [wClipA, wClipB, wClipC], past := [], future := [] }

/-- Concrete store with a non-empty `past` stack, so that `undo` is effective. -/
def wStoreH : TimelineStore := { clips := [wClipA], past := [[wClipB]], future := [] }

/-- Concrete partial-update record. -/
def wUpdates : ClipUpdates := { duration := some 9 }

/-- Concrete executor environment whose speech oracle succeeds. -/
def wEnv : ExecEnv := { speech := Except.ok "blob:audio" }

/-- Concrete args whose clipId matches no clip of `wStore`. -/
def wArgsMiss : ExecArgs := { clipId := "zz" }

/-- Concrete resolved tool call trimming clip "b". -/
def wCallTrim : FunctionCall :=
  { name := "smart_trim", args := { clipId := "b", newDuration := 2 } }

/-- Concrete intent-resolution oracle: fails to resolve step "2", resolves
every other step to `wCallTrim`. -/
def wResolve : PlanStep → List Clip → Option FunctionCall :=
  fun step _ => if step.id = "2" then none else some wCallTrim

/-- Concrete plan step resolved successfully. -/
def wStep1 : PlanStep := { id := "1", intent := "tighten the opening" }

/-- Concrete plan step whose resolution fails. -/
def wStep2 : PlanStep := { id := "2", intent := "make it pop" }

/-- Concrete plan step after the failing one. -/
def wStep3 : PlanStep := { id := "3", intent := "tighten the middle" }

/-- Concrete three-step plan whose middle step fails to resolve. -/
def wSteps : List PlanStep := [wStep1, wStep2, wStep3]

/-- Helper: mapping a by-id conditional rewrite over a list containing no
clip with that id is the identity. -/
theorem map_ite_id_of_absent (l : List Clip) (i : String) (f : Clip → Clip)
    (h : ∀ c ∈ l, c.id ≠ i) :
    l.map (fun c => if c.id = i then f c else c) = l := by
  induction l with
  | nil => rfl
  | cons a t ih =>
    rw [List.map_cons, if_neg (h a (List.mem_cons_self a t)),
      ih (fun c hc => h c (List.mem_cons_of_mem _ hc))]

/-- Helper: filtering out a missing id is the identity. -/
theorem filter_ne_id_of_absent (l : List Clip) (i : String)
    (h : ∀ c ∈ l, c.id ≠ i) :
    l.filter (fun c => c.id ≠ i) = l := by
  induction l with
  | nil => rfl
  | cons a t ih =>
    have ht := ih (fun c hc => h c (List.mem_cons_of_mem _ hc))
    rw [List.filter_cons, if_pos (by simp [h a (List.mem_cons_self a t)]), ht]

/-- Claim C1: after any mutating store primitive, `undo()` restores exactly
the pre-mutation clip list, and `redo()` right after that undo restores
exactly the post-mutation clip list. -/
theorem undo_redo_inverse (s : TimelineStore) (m : Mutation) :
    ((applyMutation s m).undo).clips = s.clips ∧
    ((applyMutation s m).undo.redo).clips = (applyMutation s m).clips := by
  cases m <;> exact ⟨rfl, rfl⟩

/-- Claim C3: every mutating primitive pushes the pre-mutation snapshot
onto `past` and empties `future`; in particular any new mutation performed
right after an `undo()` leaves `future` empty, so `redo()` is a no-op and
`canRedo()` returns false. -/
theorem mutation_pushes_past_clears_future (s : TimelineStore) (m : Mutation) :
    (applyMutation s m).past = s.clips :: s.past ∧
    (applyMutation s m).future = [] ∧
    (applyMutation s.undo m).future = [] ∧
    (applyMutation s.undo m).redo = applyMutation s.undo m ∧
    (applyMutation s.undo m).canRedo = false := by
  cases m <;> exact ⟨rfl, rfl, rfl, rfl, rfl⟩

/-- Claim C4: `removeClip`, `updateClip` and `moveClip` called with an id
matching no clip leave the clip collection unchanged (they are total
functions of the embedding, so no exception is possible). -/
theorem unknown_id_noop (s : TimelineStore) (i : String) (u : ClipUpdates)
    (st tr : Int) (h : ∀ c ∈ s.clips, c.id ≠ i) :
    (s.removeClip i).clips = s.clips ∧
    (s.updateClip i u).clips = s.clips ∧
    (s.moveClip i st tr).clips = s.clips := by
  refine ⟨filter_ne_id_of_absent s.clips i h, ?_, ?_⟩
  · exact map_ite_id_of_absent s.clips i _ h
  · exact map_ite_id_of_absent s.clips i _ h

/-- Witness for C4 on a concrete store and the unknown id "zz". -/
theorem unknown_id_noop_witness :
    (wStore.removeClip "zz").clips = wStore.clips ∧
    (wStore.updateClip "zz" wUpdates).clips = wStore.clips ∧
    (wStore.moveClip "zz" 1 2).clips = wStore.clips :=
  unknown_id_noop wStore "zz" wUpdates 1 2 (by decide)

/-- Claim C9: the store primitives called with an unknown id still push a
snapshot onto `past` and empty `future`; called right after an `undo()`
they therefore make `redo()` a no-op and `canRedo()` false. -/
theorem unknown_id_still_saves_history (s : TimelineStore) (i : String)
    (u : ClipUpdates) (st tr : Int)
    (h : ∀ c ∈ s.clips, c.id ≠ i) (h2 : ∀ c ∈ s.undo.clips, c.id ≠ i) :
    ((s.removeClip i).past = s.clips :: s.past ∧ (s.removeClip i).future = []) ∧
    ((s.updateClip i u).past = s.clips :: s.past ∧ (s.updateClip i u).future = []) ∧
    ((s.moveClip i st tr).past = s.clips :: s.past ∧ (s.moveClip i st tr).future = []) ∧
    ((s.undo.removeClip i).canRedo = false ∧
      (s.undo.removeClip i).redo = s.undo.removeClip i) ∧
    ((s.undo.updateClip i u).canRedo = false ∧
      (s.undo.updateClip i u).redo = s.undo.updateClip i u) ∧
    ((s.undo.moveClip i st tr).canRedo = false ∧
      (s.undo.moveClip i st tr).redo = s.undo.moveClip i st tr) :=
  ⟨⟨rfl, rfl⟩, ⟨rfl, rfl⟩, ⟨rfl, rfl⟩, ⟨rfl, rfl⟩, ⟨rfl, rfl⟩, ⟨rfl, rfl⟩⟩

/-- Witness for C9 on a concrete store with non-empty history. -/
theorem unknown_id_still_saves_history_witness :
    ((wStoreH.removeClip "zz").past = wStoreH.clips :: wStoreH.past ∧
      (wStoreH.removeClip "zz").future = []) ∧
    ((wStoreH.updateClip "zz" wUpdates).past = wStoreH.clips :: wStoreH.past ∧
      (wStoreH.updateClip "zz" wUpdates).future = []) ∧
    ((wStoreH.moveClip "zz" 1 2).past = wStoreH.clips :: wStoreH.past ∧
      (wStoreH.moveClip "zz" 1 2).future = []) ∧
    ((wStoreH.undo.removeClip "zz").canRedo = false ∧
      (wStoreH.undo.removeClip "zz").redo = wStoreH.undo.removeClip "zz") ∧
    ((wStoreH.undo.updateClip "zz" wUpdates).canRedo = false ∧
      (wStoreH.undo.updateClip "zz" wUpdates).redo = wStoreH.undo.updateClip "zz" wUpdates) ∧
    ((wStoreH.undo.moveClip "zz" 1 2).canRedo = false ∧
      (wStoreH.undo.moveClip "zz" 1 2).redo = wStoreH.undo.moveClip "zz" 1 2) :=
  unknown_id_still_saves_history wStoreH "zz" wUpdates 1 2 (by decide) (by decide)

/-- Claim C8: `trimClip(store, c, newDuration)` rewrites exactly the clip
with id `c`, changing only its `duration` field; every other clip (and the
order and the remaining fields of the trimmed clip) are untouched. -/
theorem trimClip_only_duration (s : TimelineStore) (cid : String) (nd : Int)
    (clip : Clip) (hmem : clip ∈ s.clips) (hid : clip.id = cid) :
    (TimelineOps.trimClip s cid nd).clips =
      s.clips.map (fun c => if c.id = cid then { c with duration := nd } else c) :=
  rfl

/-- Witness for C8: trimming clip "b" of the concrete store to duration 7. -/
theorem trimClip_only_duration_witness :
    (TimelineOps.trimClip wStore "b" 7).clips =
      [wClipA, { wClipB with duration := 7 }, wClipC] := by
  have h := trimClip_only_duration wStore "b" 7 wClipB (by decide) rfl
  rw [h]; decide

/-- Helper: the clip list reached by folding the per-clip `updateClip`
shifts of `rippleDelete` over the store equals the corresponding fold of
list rewrites over the clip list. -/
theorem foldl_updateClip_clips (dur : Int) :
    ∀ (S : List Clip) (st : TimelineStore),
    (S.foldl (fun acc c =>
        acc.updateClip c.id { startTime := some (max 0 (c.startTime - dur)) }) st).clips
    = S.foldl (fun acc c =>
        acc.map (fun x =>
          if x.id = c.id then { x with startTime := max 0 (c.startTime - dur) } else x))
        st.clips := by
  intro S
  induction S with
  | nil => intro st; rfl
  | cons c S ih =>
    intro st
    rw [List.foldl_cons, List.foldl_cons, ih]
    rfl

/-- Helper: a fold of per-element maps over a list is the map of the
per-element folds. -/
theorem foldl_map_fold {α β : Type} (f : β → α → α) :
    ∀ (S : List β) (L : List α),
    S.foldl (fun acc c => acc.map (f c)) L
      = L.map (fun x => S.foldl (fun y c => f c y) x) := by
  intro S
  induction S with
  | nil => intro L; simp
  | cons b S ih =>
    intro L
    rw [List.foldl_cons, ih, List.map_map]
    rfl

/-- Helper: the inner shift fold fixes a clip that every fold element
would rewrite to itself. -/
theorem foldl_shift_fixed (dur : Int) :
    ∀ (S : List Clip) (y : Clip),
    (∀ c ∈ S, y.id = c.id →
      ({ y with startTime := max 0 (c.startTime - dur) } : Clip) = y) →
    S.foldl (fun z c =>
      if z.id = c.id then { z with startTime := max 0 (c.startTime - dur) } else z) y = y := by
  intro S
  induction S with
  | nil => intro y _; rfl
  | cons c S ih =>
    intro y h
    rw [List.foldl_cons]
    have hstep :
        (if y.id = c.id then ({ y with startTime := max 0 (c.startTime - dur) } : Clip) else y)
          = y := by
      by_cases hc : y.id = c.id
      · rw [if_pos hc]; exact h c (List.mem_cons_self c S) hc
      · rw [if_neg hc]
    rw [hstep]
    exact ih y (fun c' hc' => h c' (List.mem_cons_of_mem _ hc'))

/-- Helper: evaluating the inner shift fold at a clip `x` that is only
matched (by id) by `x` itself: the fold shifts `x` exactly when `x` occurs
in the fold list, and by the amount recorded for `x`. -/
theorem foldl_shift_eval (dur : Int) :
    ∀ (S : List Clip) (x : Clip),
    (∀ c ∈ S, c.id = x.id → c = x) →
    S.foldl (fun y c =>
      if y.id = c.id then { y with startTime := max 0 (c.startTime - dur) } else y) x
    = if x ∈ S then { x with startTime := max 0 (x.startTime - dur) } else x := by
  intro S
  induction S with
  | nil => intro x _; simp
  | cons c S ih =>
    intro x h
    rw [List.foldl_cons]
    by_cases hxc : x.id = c.id
    · have hcx : c = x := h c (List.mem_cons_self c S) hxc.symm
      subst hcx
      rw [if_pos rfl, if_pos (List.mem_cons_self c S)]
      apply foldl_shift_fixed
      intro c' hc' hid
      have hcx' : c' = c := h c' (List.mem_cons_of_mem _ hc') hid.symm
      subst hcx'
      rfl
    · rw [if_neg hxc, ih x (fun c' hc' hid => h c' (List.mem_cons_of_mem _ hc') hid)]
      by_cases hm : x ∈ S
      · rw [if_pos hm, if_pos (List.mem_cons_of_mem c hm)]
      · rw [if_neg hm, if_neg (fun hmem => ?_)]
        rcases List.mem_cons.mp hmem with h1 | h1
        · exact hxc (congrArg Clip.id h1)
        · exact hm h1

/-- Helper: with pairwise-distinct ids, `find?` on an id returns the unique
member carrying it. -/
theorem find?_id_of_nodup (d : String) :
    ∀ (l : List Clip), (l.map Clip.id).Nodup → ∀ clip ∈ l, clip.id = d →
    l.find? (fun c => c.id = d) = some clip := by
  intro l
  induction l with
  | nil => intro _ clip hmem; cases hmem
  | cons a t ih =>
    intro hnd clip hmem hid
    have hnd2 : (a.id :: t.map Clip.id).Nodup := by simpa using hnd
    have hnd' := List.nodup_cons.mp hnd2
    by_cases ha : a.id = d
    · have : clip = a := by
        rcases List.mem_cons.mp hmem with h1 | h1
        · exact h1
        · exfalso
          have hin : clip.id ∈ t.map Clip.id := List.mem_map_of_mem Clip.id h1
          rw [hid, ← ha] at hin
          exact hnd'.1 hin
      subst this
      simp [List.find?_cons, ha]
    · have hclip : clip ∈ t := by
        rcases List.mem_cons.mp hmem with h1 | h1
        · exact absurd (h1 ▸ hid) ha
        · exact h1
      have hdec : (decide (a.id = d)) = false := decide_eq_false ha
      simp only [List.find?_cons, hdec]
      exact ih hnd'.2 clip hclip hid

/-- Claim C2: with pairwise-distinct clip ids, `rippleDelete(store, d)`
removes the clip with id `d` and rewrites the remaining list so that every
clip on the deleted clip's track starting strictly after it is shifted
left by the deleted clip's duration, clamped at 0, while every other clip
(other track, or same track not starting strictly after) is unchanged. -/
theorem rippleDelete_spec (s : TimelineStore) (d : String) (clip : Clip)
    (hnd : (s.clips.map Clip.id).Nodup) (hmem : clip ∈ s.clips) (hid : clip.id = d) :
    (TimelineOps.rippleDelete s d).clips =
      (s.clips.filter (fun c => c.id ≠ d)).map (fun c =>
        if c.trackId = clip.trackId ∧ c.startTime > clip.startTime
        then { c with startTime := max 0 (c.startTime - clip.duration) } else c) := by
  have hfind : s.clips.find? (fun c => c.id = d) = some clip :=
    find?_id_of_nodup d s.clips hnd clip hmem hid
  have hinj := List.inj_on_of_nodup_map hnd
  unfold TimelineOps.rippleDelete TimelineStore.getClips
  rw [hfind]
  rw [foldl_updateClip_clips, foldl_map_fold]
  apply List.map_congr_left
  intro x hx
  have hxs : x ∈ s.clips := (List.mem_filter.mp hx).1
  have hS : ∀ c ∈ (s.removeClip d).clips.filter
      (fun c => c.trackId = clip.trackId ∧ c.startTime > clip.startTime),
      c.id = x.id → c = x := by
    intro c hc hcid
    have hc1 : c ∈ s.clips := (List.mem_filter.mp ((List.mem_filter.mp hc).1)).1
    exact hinj hc1 hxs hcid
  rw [foldl_shift_eval clip.duration _ x hS]
  by_cases hp : x.trackId = clip.trackId ∧ x.startTime > clip.startTime
  · rw [if_pos hp, if_pos (List.mem_filter.mpr ⟨hx, by simpa using hp⟩)]
  · rw [if_neg hp, if_neg (fun hmf => hp (by simpa using (List.mem_filter.mp hmf).2))]

/-- Witness for C2: ripple-deleting clip "a" (track 1, start 0, duration 5)
shifts same-track clip "b" from start 5 to max(0, 5-5) = 0 and leaves the
other-track clip "c" untouched. -/
theorem rippleDelete_spec_witness :
    (TimelineOps.rippleDelete wStore "a").clips =
      [{ wClipB with startTime := 0 }, wClipC] := by
  have h := rippleDelete_spec wStore "a" wClipA (by decide) (by decide) rfl
  rw [h]; decide

/-- Claim C5: `ExecutorAgent.execute` is a total function of the embedding
(the TS body is wrapped whole in try/catch, so no exception escapes its
boundary); a tool name outside the known set yields the failed result
record whose error message names the unknown action, with the store
untouched, and a failing generation oracle on the `generate_voiceover`
path likewise yields a failed result record instead of an exception. -/
theorem execute_unknown_tool_failed (env : ExecEnv) (store : TimelineStore)
    (call : FunctionCall) :
    (call.name ∉ knownToolNames →
      ExecutorAgent.execute env store call =
        (store,
         { success := false, operation := call.name, clipId := none,
           error := some ("Unknown operation: " ++ call.name) })) ∧
    (∀ msg, call.name = "generate_voiceover" → env.speech = Except.error msg →
      ExecutorAgent.execute env store call =
        (store,
         { success := false, operation := call.name, clipId := none,
           error := some msg })) := by
  constructor
  · intro h
    simp only [knownToolNames, List.mem_cons, List.not_mem_nil, or_false, not_or] at h
    obtain ⟨h1, h2, h3, h4⟩ := h
    simp [ExecutorAgent.execute, h1, h2, h3, h4]
  · intro msg hname hsp
    simp [ExecutorAgent.execute, hname, hsp]

/-- Witness for C5 at the unknown tool name "bogus" and at a
`generate_voiceover` call whose speech oracle throws. -/
theorem execute_unknown_tool_failed_witness :
    ExecutorAgent.execute wEnv wStore { name := "bogus" } =
      (wStore,
       { success := false, operation := "bogus", clipId := none,
         error := some ("Unknown operation: " ++ "bogus") }) ∧
    ExecutorAgent.execute { speech := Except.error "tts down" } wStore
        { name := "generate_voiceover" } =
      (wStore,
       { success := false, operation := "generate_voiceover", clipId := none,
         error := some "tts down" }) :=
  ⟨(execute_unknown_tool_failed wEnv wStore { name := "bogus" }).1 (by decide),
   (execute_unknown_tool_failed { speech := Except.error "tts down" } wStore
     { name := "generate_voiceover" }).2 "tts down" rfl rfl⟩

/-- Claim C10: for `update_clip_property`, `smart_trim` and `ripple_delete`
tool calls whose clipId matches no clip, `ExecutorAgent.execute` reports
success (with the requested clipId) even though the clip list is left
unchanged. -/
theorem execute_lookup_miss (env : ExecEnv) (store : TimelineStore)
    (args : ExecArgs) (h : ∀ c ∈ store.clips, c.id ≠ args.clipId) :
    (ExecutorAgent.execute env store { name := "update_clip_property", args := args }).2 =
      { success := true, operation := "update_clip_property", clipId := some args.clipId } ∧
    (ExecutorAgent.execute env store { name := "update_clip_property", args := args }).1.clips
      = store.clips ∧
    (ExecutorAgent.execute env store { name := "smart_trim", args := args }).2 =
      { success := true, operation := "smart_trim", clipId := some args.clipId } ∧
    (ExecutorAgent.execute env store { name := "smart_trim", args := args }).1.clips
      = store.clips ∧
    (ExecutorAgent.execute env store { name := "ripple_delete", args := args }).2 =
      { success := true, operation := "ripple_delete", clipId := some args.clipId } ∧
    (ExecutorAgent.execute env store { name := "ripple_delete", args := args }).1.clips
      = store.clips := by
  have hf : store.clips.find? (fun c => c.id = args.clipId) = none :=
    List.find?_eq_none.mpr (fun x hx => by simpa using h x hx)
  refine ⟨rfl, ?_, rfl, ?_, rfl, ?_⟩
  · exact map_ite_id_of_absent store.clips args.clipId _ h
  · exact map_ite_id_of_absent store.clips args.clipId _ h
  · show (TimelineOps.rippleDelete store args.clipId).clips = store.clips
    unfold TimelineOps.rippleDelete TimelineStore.getClips
    rw [hf]

/-- Witness for C10 on the concrete store and the unknown clipId "zz". -/
theorem execute_lookup_miss_witness :
    (ExecutorAgent.execute wEnv wStore { name := "update_clip_property", args := wArgsMiss }).2 =
      { success := true, operation := "update_clip_property", clipId := some wArgsMiss.clipId } ∧
    (ExecutorAgent.execute wEnv wStore { name := "update_clip_property", args := wArgsMiss }).1.clips
      = wStore.clips ∧
    (ExecutorAgent.execute wEnv wStore { name := "smart_trim", args := wArgsMiss }).2 =
      { success := true, operation := "smart_trim", clipId := some wArgsMiss.clipId } ∧
    (ExecutorAgent.execute wEnv wStore { name := "smart_trim", args := wArgsMiss }).1.clips
      = wStore.clips ∧
    (ExecutorAgent.execute wEnv wStore { name := "ripple_delete", args := wArgsMiss }).2 =
      { success := true, operation := "ripple_delete", clipId := some wArgsMiss.clipId } ∧
    (ExecutorAgent.execute wEnv wStore { name := "ripple_delete", args := wArgsMiss }).1.clips
      = wStore.clips :=
  execute_lookup_miss wEnv wStore wArgsMiss (by decide)

/-- Claim C6: when the judgment-oracle call inside `verify` fails in any of
its three ways (rejects, yields no text part, or yields text that does not
parse), `verify` returns exactly the fail-open record: passed with a single
issue noting the verifier failure and a null suggestion. -/
theorem verify_fail_open (parseJson : String → Option VerificationResult)
    (oracle : String → OracleResponse) (intent operation : String)
    (pre post : List Clip)
    (h : (∃ msg, oracle (mkVerificationPrompt intent operation pre post) =
            OracleResponse.reject msg) ∨
         oracle (mkVerificationPrompt intent operation pre post) =
            OracleResponse.missingText ∨
         (∃ t, oracle (mkVerificationPrompt intent operation pre post) =
            OracleResponse.text t ∧ parseJson t = none)) :
    VerifierAgent.verify parseJson oracle intent operation pre post =
      { passed := true, issues := some ["Verification AI failed"], suggestion := none } := by
  unfold VerifierAgent.verify
  rcases h with ⟨msg, hm⟩ | hm | ⟨t, ht, hp⟩
  · rw [hm]
  · rw [hm]
  · rw [ht]
    simp [hp]

/-- Witness for C6 on a rejecting judgment oracle. -/
theorem verify_fail_open_witness :
    VerifierAgent.verify (fun _ => none) (fun _ => OracleResponse.reject "network error")
      "tighten pacing" "smart_trim" [] [] =
      { passed := true, issues := some ["Verification AI failed"], suggestion := none } :=
  verify_fail_open (fun _ => none) (fun _ => OracleResponse.reject "network error")
    "tighten pacing" "smart_trim" [] [] (Or.inl ⟨"network error", rfl⟩)

/-- Helper: the orchestrator's report lists exactly one entry per input
step, in input order (witnessed by the stepId column). -/
theorem orchestrator_ids (resolve : PlanStep → List Clip → Option FunctionCall)
    (env : ExecEnv) :
    ∀ (steps : List PlanStep) (store : TimelineStore),
    ((OrchestratorAgent.executePlanWithVerification resolve env store steps).2.map
      StepResult.stepId) = steps.map PlanStep.id := by
  intro steps
  induction steps with
  | nil => intro store; rfl
  | cons step rest ih =>
    intro store
    cases hr : resolve step store.clips with
    | none => simp [OrchestratorAgent.executePlanWithVerification, hr, ih]
    | some call => simp [OrchestratorAgent.executePlanWithVerification, hr, ih]

/-- Claim C7: the orchestrator's report maps 1:1 in order onto the input
steps; a step whose resolution oracle yields no action is recorded as
resolution-failed while the remaining steps are still processed from the
same store; a resolved step is executed and recorded as success or failed
from the executor's result, and the remaining steps are still processed
from the post-execution store — no failure stops the plan. -/
theorem executePlan_report (resolve : PlanStep → List Clip → Option FunctionCall)
    (env : ExecEnv) (store : TimelineStore) :
    (∀ steps : List PlanStep,
      ((OrchestratorAgent.executePlanWithVerification resolve env store steps).2.map
        StepResult.stepId) = steps.map PlanStep.id) ∧
    (∀ step rest, resolve step store.clips = none →
      OrchestratorAgent.executePlanWithVerification resolve env store (step :: rest) =
        ((OrchestratorAgent.executePlanWithVerification resolve env store rest).1,
         { stepId := step.id, status := "resolution-failed" }
           :: (OrchestratorAgent.executePlanWithVerification resolve env store rest).2)) ∧
    (∀ step rest call, resolve step store.clips = some call →
      OrchestratorAgent.executePlanWithVerification resolve env store (step :: rest) =
        ((OrchestratorAgent.executePlanWithVerification resolve env
            (ExecutorAgent.execute env store call).1 rest).1,
         { stepId := step.id,
           status := if (ExecutorAgent.execute env store call).2.success then "success"
                     else "failed",
           error := (ExecutorAgent.execute env store call).2.error }
           :: (OrchestratorAgent.executePlanWithVerification resolve env
                 (ExecutorAgent.execute env store call).1 rest).2)) := by
  refine ⟨fun steps => orchestrator_ids resolve env steps store, ?_, ?_⟩
  · intro step rest hr
    simp [OrchestratorAgent.executePlanWithVerification, hr]
  · intro step rest call hr
    simp [OrchestratorAgent.executePlanWithVerification, hr]

/-- Witness for C7: a concrete three-step plan whose middle step fails to
resolve still yields a 1:1 in-order report; the resolution-failed and
resolved unfoldings are exercised on steps "2" and "1". -/
theorem executePlan_report_witness :
    ((OrchestratorAgent.executePlanWithVerification wResolve wEnv wStore wSteps).2.map
      StepResult.stepId) = wSteps.map PlanStep.id ∧
    OrchestratorAgent.executePlanWithVerification wResolve wEnv wStore (wStep2 :: [wStep3]) =
      ((OrchestratorAgent.executePlanWithVerification wResolve wEnv wStore [wStep3]).1,
       { stepId := wStep2.id, status := "resolution-failed" }
         :: (OrchestratorAgent.executePlanWithVerification wResolve wEnv wStore [wStep3]).2) ∧
    OrchestratorAgent.executePlanWithVerification wResolve wEnv wStore (wStep1 :: []) =
      ((OrchestratorAgent.executePlanWithVerification wResolve wEnv
          (ExecutorAgent.execute wEnv wStore wCallTrim).1 []).1,
       { stepId := wStep1.id,
         status := if (ExecutorAgent.execute wEnv wStore wCallTrim).2.success then "success"
                   else "failed",
         error := (ExecutorAgent.execute wEnv wStore wCallTrim).2.error }
         :: (OrchestratorAgent.executePlanWithVerification wResolve wEnv
               (ExecutorAgent.execute wEnv wStore wCallTrim).1 []).2) := by
  have h := executePlan_report wResolve wEnv wStore
  exact ⟨h.1 wSteps, h.2.1 wStep2 [wStep3] rfl, h.2.2 wStep1 [] wCallTrim rfl⟩
